import Mathlib

/-!
Shallow embedding of the slope-multiplayer websocket game server
(`src/server.js`).  The file `server.js` contains two documents: an early
version of the server (lines 1-55, referred to below as the *first
document*) and the main game server (lines 56-275).  JavaScript numbers
are modelled as rationals, JS objects keyed by strings as association
lists, and `Math.random()` draws as explicit rational parameters in
`[0, 1)`.  The `try/catch` around the message handler is modelled by
returning the state accumulated up to the point where the handler would
throw (JS mutations made before a throw survive the catch).
-/

namespace Slope

/-- Association-list update mirroring JS `obj[k] = v`: overwrite in place
if the key is present, append otherwise. -/
def alSet {α : Type} (k : String) (v : α) : List (String × α) → List (String × α)
  | [] => [(k, v)]
  | (k', v') :: rest => if k' = k then (k, v) :: rest else (k', v') :: alSet k v rest

/-- Association-list lookup mirroring JS `obj[k]` (first binding wins). -/
def alGet {α : Type} (k : String) : List (String × α) → Option α
  | [] => none
  | (k', v') :: rest => if k' = k then some v' else alGet k rest

/-- Association-list removal mirroring JS `delete obj[k]`. -/
def alDel {α : Type} (k : String) : List (String × α) → List (String × α)
  | [] => []
  | (k', v') :: rest => if k' = k then alDel k rest else (k', v') :: alDel k rest

/-- Source: `const LANE_X = [-4, 0, 4];` (server.js line 69). -/
def LANE_X : List ℚ := [-4, 0, 4]

/-- Source: `const PLAYER_START_Y = 1;` -/
def PLAYER_START_Y : ℚ := 1

/-- Source: `const PLAYER_START_Z = 0;` -/
def PLAYER_START_Z : ℚ := 0

/-- Source: `const OBSTACLE_BOUNDS = 1.6;` -/
def OBSTACLE_BOUNDS : ℚ := 1.6

/-- The value `TICK_TIME / 1000`, the tick period in seconds (`1000 / 60` ms). -/
def TICK_SECONDS : ℚ := (1000 / 60) / 1000

/-- The lookup `LANE_X[i]` for an integer index.  In JS an out-of-range index yields
`undefined` (and arithmetic on it yields NaN); the out-of-range branch
returns `0` here and is exercised by no theorem below — every theorem
about the smoothing step carries or derives the in-range hypothesis. -/
def laneXVal (i : ℤ) : ℚ :=
  if 0 ≤ i ∧ i < (LANE_X.length : ℤ) then LANE_X.getD i.toNat 0 else 0

/-- One player record, as built by the `join` case of the message handler.
`nickname`/`color` are `Option`s because JS stores `undefined` when the
corresponding payload field is missing. -/
structure Player where
  nickname : Option String
  color : Option String
  ready : Bool
  alive : Bool
  x : ℚ
  y : ℚ
  z : ℚ
  laneTarget : ℤ
  laneCurrent : ℚ
  deriving Repr, DecidableEq

/-- One obstacle; the `uuid` id is modelled as a `Nat`. -/
structure Obstacle where
  id : ℕ
  x : ℚ
  y : ℚ
  z : ℚ
  deriving Repr, DecidableEq

/-- Room state.  `gameInterval` is modelled by the `running` flag alone:
the tick body itself bails out when `running` is false, which is the
observable effect of `clearInterval`.  Fields the JS code leaves
`undefined` until `startGame` (obstacles, score, t) carry defaults that
no claim-relevant path reads before `startGame` sets them. -/
structure Room where
  players : List (String × Player)
  obstacles : List Obstacle := []
  running : Bool := false
  t : ℚ := 0
  score : ℚ := 0
  deriving Repr, DecidableEq

/-- The fresh room inserted by `rooms[roomId] = { players: {}, running: false }`. -/
def emptyRoom : Room := { players := [] }

/-- The process-wide `rooms` table. -/
abbrev Rooms : Type := List (String × Room)

/-- A websocket connection: the ad hoc `ws.roomId` / `ws.playerId`
binding fields plus its `readyState === OPEN` status. -/
structure Conn where
  roomId : Option String
  playerId : Option String
  isOpen : Bool
  deriving Repr, DecidableEq

/-- The inbound payload, restricted to the fields the server ever reads
or that name simulation-authoritative player state (the `update` case
shallow-merges whatever fields are present).  `none` means the field is
absent from the JSON object. -/
structure Payload where
  nickname : Option String := none
  color : Option String := none
  ready : Option Bool := none
  alive : Option Bool := none
  x : Option ℚ := none
  y : Option ℚ := none
  z : Option ℚ := none
  laneTarget : Option ℤ := none
  laneCurrent : Option ℚ := none
  input : Option String := none
  deriving Repr, DecidableEq

/-- A decoded inbound message `{ roomId, playerId, action, payload }`.
`payload = none` models a message whose `payload` field is absent
(`undefined`), so that property accesses on it throw. -/
structure InMsg where
  roomId : String
  playerId : String
  action : String
  payload : Option Payload
  deriving Repr, DecidableEq

/-- Outbound messages, tagged with the roomId they are scoped to. -/
inductive OutMsg where
  | state (roomId : String) (players : List (String × Player))
  | gameState (roomId : String) (players : List (String × Player))
      (obstacles : List Obstacle) (score : ℤ) (running : Bool)
  | gameOver (roomId : String)
  deriving Repr, DecidableEq

/-- Embeds `broadcastToRoom` (server.js lines 75-81): the set of connections a
room-scoped message is delivered to — every client that is open **and**
whose `roomId` binding equals the target room. -/
def broadcastToRoom (clients : List Conn) (roomId : String) : List Conn :=
  clients.filter (fun c => c.isOpen && c.roomId == some roomId)

/-- The *first document*'s broadcast (server.js lines 41-45): the state
message, though tagged with a `roomId`, is sent to **every** open client
with no room filter. -/
def broadcastAllClients (clients : List Conn) : List Conn :=
  clients.filter (fun c => c.isOpen)

/-- Embeds `spawnObstacle(room, z)` (lines 123-131): the lane is
`Math.floor(Math.random() * LANE_X.length)`; `r` is the random draw. -/
def spawnObstacle (oid : ℕ) (r : ℚ) (z : ℚ) : Obstacle :=
  { id := oid, x := LANE_X.getD (Int.toNat ⌊r * (LANE_X.length : ℚ)⌋) 0, y := 0.9, z := z }

/-- Embeds `startGame(roomId)` (lines 83-110).  `rnd i` is the random draw used
for the `i`-th seeded obstacle's lane.  Returns the table unchanged when
the room is absent or already running. -/
def startGame (rnd : ℕ → ℚ) (rooms : Rooms) (roomId : String) : Rooms :=
  match alGet roomId rooms with
  | none => rooms
  | some room =>
    if room.running then rooms
    else
      alSet roomId
        { room with
          running := true
          score := 0
          t := 0
          obstacles := (List.range 8).map (fun i => spawnObstacle i (rnd i) (-(i + 1 : ℚ) * 20))
          players := room.players.map (fun kv =>
            (kv.1, { kv.2 with
              alive := true, x := 0, y := PLAYER_START_Y, z := PLAYER_START_Z,
              laneTarget := 1, laneCurrent := 0 })) }
        rooms

/-- Embeds `stopGame(roomId)` (lines 112-121): no-op unless the room exists and
is running; otherwise clears the tick, sets `running := false` and emits
one `gameOver` broadcast. -/
def stopGame (rooms : Rooms) (roomId : String) : Rooms × List OutMsg :=
  match alGet roomId rooms with
  | none => (rooms, [])
  | some room =>
    if room.running then
      (alSet roomId { room with running := false } rooms, [OutMsg.gameOver roomId])
    else (rooms, [])

/-- One obstacle's per-tick update (lines 142-150): advance `z` by
`speed`; past `z > 6`, recycle with `z = -(160 + rz * 80)` and a fresh
random lane `LANE_X[Math.floor(rl * LANE_X.length)]`. -/
def updateObstacle (speed : ℚ) (rz rl : ℚ) (o : Obstacle) : Obstacle :=
  let z' := o.z + speed
  if z' > 6 then
    { o with
      z := -(160 + rz * 80)
      x := LANE_X.getD (Int.toNat ⌊rl * (LANE_X.length : ℚ)⌋) 0 }
  else { o with z := z' }

/-- The obstacle loop; `rnd i` supplies the `(rz, rl)` random pair for
obstacle `i` (the JS loop runs in reverse index order, but each entry is
updated independently in place, so index-wise mapping is the same
function). -/
def updateObstacles (speed : ℚ) (rnd : ℕ → ℚ × ℚ) : ℕ → List Obstacle → List Obstacle
  | _, [] => []
  | i, o :: rest => updateObstacle speed (rnd i).1 (rnd i).2 o :: updateObstacles speed rnd (i + 1) rest

/-- The per-player part of the tick (lines 154-175): dead players are
skipped; an alive player's `laneCurrent` moves 0.15 of the way toward
`LANE_X[laneTarget]`, `x` is set to it, and the player dies if any
obstacle is within `OBSTACLE_BOUNDS` on both axes (the JS `break` after
the first hit changes nothing observable, since the only effect is
`alive = false`). -/
def stepPlayer (obstacles : List Obstacle) (p : Player) : Player :=
  if p.alive then
    let targetX := laneXVal p.laneTarget
    let lane' := p.laneCurrent + (targetX - p.laneCurrent) * 0.15
    let hit := obstacles.any (fun o =>
      |o.x - lane'| < OBSTACLE_BOUNDS && |o.z - p.z| < OBSTACLE_BOUNDS)
    { p with laneCurrent := lane', x := lane', alive := !hit }
  else p

/-- The tick's instantaneous speed, computed from the already-advanced
time accumulator: `0.5 + Math.min(3.5, room.t * 0.12)` (line 138). -/
def roomSpeed (room : Room) : ℚ :=
  0.5 + min 3.5 ((room.t + TICK_SECONDS) * 0.12)

/-- The state mutation one tick performs on a running room (lines
137-175): advance `t`, accumulate `score`, advance/recycle every
obstacle, then smooth and collision-test every alive player against the
already-updated obstacles. -/
def tickRoom (rnd : ℕ → ℚ × ℚ) (room : Room) : Room :=
  let speed := roomSpeed room
  let obstacles' := updateObstacles speed rnd 0 room.obstacles
  { room with
    t := room.t + TICK_SECONDS
    score := room.score + speed * TICK_SECONDS * 10
    obstacles := obstacles'
    players := room.players.map (fun kv => (kv.1, stepPlayer obstacles' kv.2)) }

/-- Embeds `gameLoop(roomId)` (lines 133-193).  Returns the updated room table
and the broadcasts the tick emits.  `playersAlive` counts the players
alive at loop entry, exactly as the JS counter does (a player killed by
this very tick was counted before its collision test ran). -/
def gameLoop (rnd : ℕ → ℚ × ℚ) (rooms : Rooms) (roomId : String) : Rooms × List OutMsg :=
  match alGet roomId rooms with
  | none => (rooms, [])
  | some room =>
    if room.running then
      let room' := tickRoom rnd room
      let playersAlive := (room.players.filter (fun kv => kv.2.alive)).length
      if playersAlive == 0 && !room'.players.isEmpty then
        stopGame (alSet roomId room' rooms) roomId
      else
        (alSet roomId room' rooms,
         [OutMsg.gameState roomId room'.players room'.obstacles ⌊room'.score⌋ room'.running])
    else (rooms, [])

/-- The player record the `join` case inserts (lines 212-219). -/
def joinPlayer (pl : Payload) : Player :=
  { nickname := pl.nickname, color := pl.color, ready := false, alive := true,
    x := 0, y := PLAYER_START_Y, z := PLAYER_START_Z, laneTarget := 1, laneCurrent := 0 }

/-- Embeds `Object.assign(player, payload)` (line 226): every field present in
the payload overwrites the player's field. -/
def applyUpdate (p : Player) (pl : Payload) : Player :=
  { nickname := pl.nickname.map some |>.getD p.nickname
    color := pl.color.map some |>.getD p.color
    ready := pl.ready.getD p.ready
    alive := pl.alive.getD p.alive
    x := pl.x.getD p.x
    y := pl.y.getD p.y
    z := pl.z.getD p.z
    laneTarget := pl.laneTarget.getD p.laneTarget
    laneCurrent := pl.laneCurrent.getD p.laneCurrent }

/-- The `update` case's merge (lines 225-226): look the player up; if it
exists and a payload object was sent, shallow-merge the payload onto it
(`Object.assign(player, undefined)` is a silent no-op in JS, hence the
catch-all branch). -/
def mergePlayers (players : List (String × Player)) (playerId : String)
    (payload : Option Payload) : List (String × Player) :=
  match alGet playerId players, payload with
  | some p, some pl => alSet playerId (applyUpdate p pl) players
  | _, _ => players

/-- The `input` case's effect on the target player (lines 239-243):
`left` decrements `laneTarget` clamped at 0, `right` increments it
clamped at `LANE_X.length - 1`, anything else is a no-op. -/
def inputStep (pl : Payload) (p : Player) : Player :=
  if pl.input = some "left" then
    { p with laneTarget := max 0 (p.laneTarget - 1) }
  else if pl.input = some "right" then
    { p with laneTarget := min ((LANE_X.length : ℤ) - 1) (p.laneTarget + 1) }
  else p

/-- The `rooms[roomId]` guard at the top of the message handler
(lines 203-205): create the room eagerly if absent, whatever the action. -/
def ensureRoom (roomId : String) (rooms : Rooms) : Rooms :=
  match alGet roomId rooms with
  | none => alSet roomId emptyRoom rooms
  | some _ => rooms

/-- The message handler (lines 198-251), for one decoded message on one
connection.  Returns the new room table, the connection's new binding
fields, and the emitted broadcasts.  Where the JS body would throw
(property access on an `undefined` payload), the result is the state
mutated so far — the `catch` only logs. -/
def handleMessage (rnd : ℕ → ℚ) (rooms : Rooms) (ws : Conn) (m : InMsg) :
    Rooms × Conn × List OutMsg :=
  let rooms1 := ensureRoom m.roomId rooms
  let room := (alGet m.roomId rooms1).getD emptyRoom
  if m.action = "join" then
    let ws' := { ws with roomId := some m.roomId, playerId := some m.playerId }
    match m.payload with
    | none => (rooms1, ws', [])
    | some pl =>
      let room' := { room with players := alSet m.playerId (joinPlayer pl) room.players }
      (alSet m.roomId room' rooms1, ws', [OutMsg.state m.roomId room'.players])
  else if m.action = "update" then
    let players' := mergePlayers room.players m.playerId m.payload
    let room' := { room with players := players' }
    let rooms2 := alSet m.roomId room' rooms1
    let out := [OutMsg.state m.roomId players']
    let allReady := players'.all (fun kv => kv.2.ready)
    if allReady && !room'.running && !players'.isEmpty then
      (startGame rnd rooms2 m.roomId, ws, out)
    else (rooms2, ws, out)
  else if m.action = "input" then
    match alGet m.playerId room.players with
    | some p =>
      if p.alive then
        match m.payload with
        | none => (rooms1, ws, [])
        | some pl =>
          (alSet m.roomId { room with players := alSet m.playerId (inputStep pl p) room.players }
            rooms1, ws, [])
      else (rooms1, ws, [])
    | none => (rooms1, ws, [])
  else (rooms1, ws, [])

/-- A raw inbound frame: `none` models a message `JSON.parse` rejects
(the catch fires before any mutation). -/
def handleRaw (rnd : ℕ → ℚ) (rooms : Rooms) (ws : Conn) (raw : Option InMsg) :
    Rooms × Conn × List OutMsg :=
  match raw with
  | none => (rooms, ws, [])
  | some m => handleMessage rnd rooms ws m

/-- The close handler (lines 253-274): if the connection was bound,
remove the player; if the room became empty, stop it and delete it,
otherwise broadcast the remaining roster. -/
def handleClose (rooms : Rooms) (ws : Conn) : Rooms × List OutMsg :=
  match ws.roomId, ws.playerId with
  | some roomId, some playerId =>
    match alGet roomId rooms with
    | some room =>
      let room1 := { room with players := alDel playerId room.players }
      if room1.players = [] then
        let stopped := stopGame (alSet roomId room1 rooms) roomId
        (alDel roomId stopped.1, stopped.2)
      else
        (alSet roomId room1 rooms, [OutMsg.state roomId room1.players])
    | none => (rooms, [])
  | _, _ => (rooms, [])

/-- Iterated ticks for one room: run `n` consecutive `gameLoop` calls,
`rnds j` supplying the random draws of the `j`-th tick, collecting every
broadcast emitted along the way. -/
def tickN (rnds : ℕ → ℕ → ℚ × ℚ) (roomId : String) (rooms : Rooms) : ℕ → Rooms × List OutMsg
  | 0 => (rooms, [])
  | n + 1 =>
    let r := gameLoop (rnds 0) rooms roomId
    let rest := tickN (fun j => rnds (j + 1)) roomId r.1 n
    (rest.1, r.2 ++ rest.2)

/-- A server event: an inbound decoded message, a tick firing for a
room, or a connection (with the given binding fields) closing.  The
room-table effect of `handleMessage` does not depend on the handling
connection, so `evStep` runs it on a fresh one. -/
inductive Ev where
  | emsg (rnd : ℕ → ℚ) (m : InMsg)
  | etick (rnd : ℕ → ℚ × ℚ) (roomId : String)
  | eclose (ws : Conn)

/-- Effect of one event on the room table. -/
def evStep (rooms : Rooms) : Ev → Rooms
  | .emsg rnd m => (handleMessage rnd rooms ⟨none, none, true⟩ m).1
  | .etick rnd roomId => (gameLoop rnd rooms roomId).1
  | .eclose ws => (handleClose rooms ws).1

/-- Room table reached from `rooms` by a sequence of events. -/
def runEvents (rooms : Rooms) (evs : List Ev) : Rooms :=
  evs.foldl evStep rooms

/-- The property the tick engine's `LANE_X[player.laneTarget]` lookup
needs: `laneTarget` is a valid index into `LANE_X`. -/
def laneOk (p : Player) : Prop :=
  0 ≤ p.laneTarget ∧ p.laneTarget < (LANE_X.length : ℤ)

instance (p : Player) : Decidable (laneOk p) := by
  unfold laneOk
  infer_instance

/-- Every player of the room has an in-range `laneTarget`. -/
def laneOkRoom (room : Room) : Prop :=
  ∀ kv ∈ room.players, laneOk kv.2

instance (room : Room) : Decidable (laneOkRoom room) := by
  unfold laneOkRoom
  infer_instance

/-- Every player of every room has an in-range `laneTarget`. -/
def laneOkRooms (rooms : Rooms) : Prop :=
  ∀ kv ∈ rooms, laneOkRoom kv.2

instance (rooms : Rooms) : Decidable (laneOkRooms rooms) := by
  unfold laneOkRooms
  infer_instance

/-- A message whose `update` payload does not contain a `laneTarget`
field (the restriction under which the lane-index invariant holds). -/
def MsgNoLanePatch (m : InMsg) : Prop :=
  m.action = "update" → (m.payload.map Payload.laneTarget).getD none = none

/-- Events whose messages never patch `laneTarget` through `update`. -/
def EvNoLanePatch : Ev → Prop
  | .emsg _ m => MsgNoLanePatch m
  | _ => True

/-! ### Concrete fixtures for witnesses and counterexamples -/

/-- A fresh, never-joined open connection. -/
def connFresh : Conn := { roomId := none, playerId := none, isOpen := true }

/-- An open connection bound to room "B". -/
def connB : Conn := { roomId := some "B", playerId := some "p", isOpen := true }

/-- A constant zero random source for `startGame` seeding. -/
def rndZ : ℕ → ℚ := fun _ => 0

/-- A constant zero random source for one tick. -/
def rndP : ℕ → ℚ × ℚ := fun _ => (0, 0)

/-- A constant zero random source for iterated ticks. -/
def rndS : ℕ → ℕ → ℚ × ℚ := fun _ _ => (0, 0)

/-- A join message for player "P" in room "R". -/
def msgJoin : InMsg :=
  { roomId := "R", playerId := "P", action := "join",
    payload := some { nickname := some "n", color := some "c" } }

/-- An update message flipping "P"'s ready flag to true. -/
def msgReady : InMsg :=
  { roomId := "R", playerId := "P", action := "update",
    payload := some { ready := some true } }

/-- An update message whose shallow merge writes `laneTarget = 5` onto
the player record. -/
def msgLanePatch : InMsg :=
  { roomId := "R", playerId := "P", action := "update",
    payload := some { laneTarget := some 5 } }

/-- A message with an unrecognized action and no payload. -/
def msgNoop : InMsg :=
  { roomId := "R", playerId := "P", action := "noop", payload := none }

/-- A join message whose payload is missing, so that the join case
throws at `payload.nickname` after binding the connection. -/
def msgJoinNoPayload : InMsg :=
  { roomId := "R", playerId := "P", action := "join", payload := none }

/-- A left input message for player "P" in room "R". -/
def msgLeft : InMsg :=
  { roomId := "R", playerId := "P", action := "input",
    payload := some { input := some "left" } }

/-- An input message whose payload is missing, so that the input case
throws at `payload.input` when the target player is alive. -/
def msgInputNoPayload : InMsg :=
  { roomId := "R", playerId := "P", action := "input", payload := none }

/-- The player record "P" holds right after joining. -/
def playerA : Player := joinPlayer { nickname := some "n", color := some "c" }

/-- The same player, dead. -/
def playerDead : Player := { playerA with alive := false }

/-- A running room holding the single alive player "P" and one obstacle. -/
def roomRun : Room :=
  { players := [("P", playerA)], obstacles := [{ id := 0, x := -4, y := 0.9, z := -20 }],
    running := true, t := 0, score := 0 }

/-- A running room whose single player "P" is dead. -/
def roomDead : Room := { roomRun with players := [("P", playerDead)] }

/-- A non-running lobby room holding "P". -/
def roomIdle : Room := { players := [("P", playerA)] }

/-- A non-running lobby room whose single player "P" is dead. -/
def roomIdleDead : Room := { players := [("P", playerDead)] }

/-- A join message for a second player "Q" into room "R". -/
def msgJoinQ : InMsg :=
  { roomId := "R", playerId := "Q", action := "join",
    payload := some { nickname := some "q", color := some "k" } }

/-- The event trace of the lane-patch counterexample: join, then an
update whose payload smuggles `laneTarget = 5`. -/
def lanePatchTrace : List Ev := [Ev.emsg rndZ msgJoin, Ev.emsg rndZ msgLanePatch]

/-- The running room after "Q" joins it mid-round. -/
def joinedRoomW : Room :=
  { roomRun with
    players := alSet "Q" (joinPlayer { nickname := some "q", color := some "k" })
      roomRun.players }

/-! ### Association-list lemmas -/

theorem alGet_alSet_self {α : Type} (k : String) (v : α) (l : List (String × α)) :
    alGet k (alSet k v l) = some v := by
  induction l with
  | nil => simp [alSet, alGet]
  | cons kv rest ih =>
    obtain ⟨k', v'⟩ := kv
    by_cases h : k' = k
    · simp [alSet, alGet, h]
    · simp [alSet, alGet, h, ih]

theorem alGet_alSet_ne {α : Type} (k k' : String) (v : α) (l : List (String × α))
    (h : k' ≠ k) : alGet k' (alSet k v l) = alGet k' l := by
  induction l with
  | nil => simp [alSet, alGet, Ne.symm h]
  | cons kv rest ih =>
    obtain ⟨k₀, v₀⟩ := kv
    by_cases h0 : k₀ = k
    · subst h0
      simp [alSet, alGet, Ne.symm h]
    · by_cases h1 : k₀ = k'
      · subst h1
        simp [alSet, alGet, h, h0]
      · simp [alSet, alGet, h0, h1, ih]

theorem alGet_map {α β : Type} (f : α → β) (k : String) (l : List (String × α)) :
    alGet k (l.map (fun kv => (kv.1, f kv.2))) = (alGet k l).map f := by
  induction l with
  | nil => simp [alGet]
  | cons kv rest ih =>
    obtain ⟨k', v'⟩ := kv
    by_cases h : k' = k
    · simp [alGet, h]
    · simp [alGet, h, ih]

theorem alGet_alDel_self {α : Type} (k : String) (l : List (String × α)) :
    alGet k (alDel k l) = none := by
  induction l with
  | nil => simp [alDel, alGet]
  | cons kv rest ih =>
    obtain ⟨k', v'⟩ := kv
    by_cases h : k' = k
    · simp [alDel, h, ih]
    · simp [alDel, alGet, h, ih]

theorem alGet_alDel_ne {α : Type} (k k' : String) (l : List (String × α))
    (h : k' ≠ k) : alGet k' (alDel k l) = alGet k' l := by
  induction l with
  | nil => simp [alDel]
  | cons kv rest ih =>
    obtain ⟨k₀, v₀⟩ := kv
    by_cases h0 : k₀ = k
    · subst h0
      simp [alDel, alGet, Ne.symm h, ih]
    · by_cases h1 : k₀ = k'
      · subst h1
        simp [alDel, alGet, h, h0]
      · simp [alDel, alGet, h0, h1, ih]

theorem alGet_ensureRoom_self (roomId : String) (rooms : Rooms) :
    alGet roomId (ensureRoom roomId rooms) = some ((alGet roomId rooms).getD emptyRoom) := by
  unfold ensureRoom
  cases h : alGet roomId rooms with
  | none => simp [alGet_alSet_self]
  | some r => simp [h]

theorem alGet_ensureRoom_ne (roomId k : String) (rooms : Rooms) (h : k ≠ roomId) :
    alGet k (ensureRoom roomId rooms) = alGet k rooms := by
  unfold ensureRoom
  cases h0 : alGet roomId rooms with
  | none => simp [alGet_alSet_ne _ _ _ _ h]
  | some r => rfl

theorem updateObstacles_getElem? (speed : ℚ) (rnd : ℕ → ℚ × ℚ) (l : List Obstacle)
    (start i : ℕ) :
    (updateObstacles speed rnd start l)[i]? =
      (l[i]?).map (fun o => updateObstacle speed (rnd (start + i)).1 (rnd (start + i)).2 o) := by
  induction l generalizing start i with
  | nil => simp [updateObstacles]
  | cons o rest ih =>
    cases i with
    | zero => simp [updateObstacles]
    | succ j =>
      have := ih (start + 1) j
      simp only [updateObstacles, List.getElem?_cons_succ, this]
      ring_nf

theorem alGet_mem {α : Type} {k : String} {v : α} {l : List (String × α)}
    (h : alGet k l = some v) : (k, v) ∈ l := by
  induction l with
  | nil => simp [alGet] at h
  | cons kv rest ih =>
    obtain ⟨k', v'⟩ := kv
    by_cases h0 : k' = k
    · subst h0
      simp [alGet] at h
      simp [h]
    · simp [alGet, h0] at h
      exact List.mem_cons_of_mem _ (ih h)

theorem mem_alSet {α : Type} {kv : String × α} {k : String} {v : α} {l : List (String × α)}
    (h : kv ∈ alSet k v l) : kv = (k, v) ∨ kv ∈ l := by
  induction l with
  | nil =>
    simp [alSet] at h
    exact Or.inl h
  | cons kv0 rest ih =>
    obtain ⟨k0, v0⟩ := kv0
    by_cases h0 : k0 = k
    · subst h0
      simp only [alSet, if_pos rfl] at h
      rcases List.mem_cons.mp h with h | h
      · exact Or.inl h
      · exact Or.inr (List.mem_cons_of_mem _ h)
    · simp only [alSet, if_neg h0] at h
      rcases List.mem_cons.mp h with h | h
      · exact Or.inr (by simp [h])
      · rcases ih h with h | h
        · exact Or.inl h
        · exact Or.inr (List.mem_cons_of_mem _ h)

theorem mem_alSet_self {α : Type} (k : String) (v : α) (l : List (String × α)) :
    (k, v) ∈ alSet k v l := by
  induction l with
  | nil => simp [alSet]
  | cons kv0 rest ih =>
    obtain ⟨k0, v0⟩ := kv0
    by_cases h0 : k0 = k
    · simp [alSet, h0]
    · simp only [alSet, if_neg h0]
      exact List.mem_cons_of_mem _ ih

theorem mem_alDel {α : Type} {kv : String × α} {k : String} {l : List (String × α)}
    (h : kv ∈ alDel k l) : kv ∈ l := by
  induction l with
  | nil => simp [alDel] at h
  | cons kv0 rest ih =>
    obtain ⟨k0, v0⟩ := kv0
    by_cases h0 : k0 = k
    · simp only [alDel, if_pos h0] at h
      exact List.mem_cons_of_mem _ (ih h)
    · simp only [alDel, if_neg h0] at h
      rcases List.mem_cons.mp h with h | h
      · simp [h]
      · exact List.mem_cons_of_mem _ (ih h)

/-! ### Branch lemmas for the tick -/

theorem tickRoom_players_get (rnd : ℕ → ℚ × ℚ) (room : Room) (pid : String) :
    alGet pid (tickRoom rnd room).players =
      (alGet pid room.players).map (stepPlayer (tickRoom rnd room).obstacles) := by
  simp only [tickRoom]
  exact alGet_map _ pid room.players

/-- A running room entered with at least one alive player ticks into
the broadcast branch. -/
theorem gameLoop_run_alive {rnd : ℕ → ℚ × ℚ} {rooms : Rooms} {roomId : String} {room : Room}
    {pid : String} {p : Player}
    (hroom : alGet roomId rooms = some room) (hrun : room.running = true)
    (hp : alGet pid room.players = some p) (hal : p.alive = true) :
    gameLoop rnd rooms roomId =
      (alSet roomId (tickRoom rnd room) rooms,
       [OutMsg.gameState roomId (tickRoom rnd room).players (tickRoom rnd room).obstacles
         ⌊(tickRoom rnd room).score⌋ true]) := by
  have hmem : (pid, p) ∈ room.players.filter (fun kv => kv.2.alive) :=
    List.mem_filter.mpr ⟨alGet_mem hp, by simp [hal]⟩
  have hlen : ((room.players.filter (fun kv => kv.2.alive)).length == 0) = false := by
    have := List.length_pos.mpr (List.ne_nil_of_mem hmem)
    simp [Nat.pos_iff_ne_zero.mp this]
  have hrunning : (tickRoom rnd room).running = true := by
    simp [tickRoom, hrun]
  simp only [gameLoop, hroom, hrun, if_true, hlen, Bool.false_and, Bool.false_eq_true,
    if_false, hrunning]

/-- A running room entered with players but none of them alive ticks
into the stop branch: one `gameOver`, `running` cleared, no `gameState`. -/
theorem gameLoop_run_allDead {rnd : ℕ → ℚ × ℚ} {rooms : Rooms} {roomId : String} {room : Room}
    (hroom : alGet roomId rooms = some room) (hrun : room.running = true)
    (hne : room.players ≠ [])
    (hdead : ∀ kv ∈ room.players, kv.2.alive = false) :
    gameLoop rnd rooms roomId =
      (alSet roomId { tickRoom rnd room with running := false }
        (alSet roomId (tickRoom rnd room) rooms),
       [OutMsg.gameOver roomId]) := by
  have hfilter : room.players.filter (fun kv => kv.2.alive) = [] := by
    rw [List.filter_eq_nil_iff]
    intro kv hkv
    simp [hdead kv hkv]
  have hempty : (tickRoom rnd room).players.isEmpty = false := by
    simp only [tickRoom]
    cases h : room.players with
    | nil => exact absurd h hne
    | cons a l => simp [h]
  have hrunning : (tickRoom rnd room).running = true := by
    simp [tickRoom, hrun]
  simp only [gameLoop, hroom, hrun, if_true, hfilter, List.length_nil,
    hempty, Bool.not_false, Bool.and_true, Bool.true_and, if_true, beq_self_eq_true,
    stopGame, alGet_alSet_self, hrunning]

/-- A non-running room's tick is a no-op that emits nothing. -/
theorem gameLoop_not_running {rnd : ℕ → ℚ × ℚ} {rooms : Rooms} {roomId : String} {room : Room}
    (hroom : alGet roomId rooms = some room) (hrun : room.running = false) :
    gameLoop rnd rooms roomId = (rooms, []) := by
  simp [gameLoop, hroom, hrun]

/-- Iterated ticks of a non-running room change nothing and emit
nothing. -/
theorem tickN_not_running {rooms : Rooms} {roomId : String} {room : Room}
    (hroom : alGet roomId rooms = some room) (hrun : room.running = false)
    (rnds : ℕ → ℕ → ℚ × ℚ) (n : ℕ) :
    tickN rnds roomId rooms n = (rooms, []) := by
  induction n generalizing rnds with
  | zero => rfl
  | succ n ih =>
    simp only [tickN, gameLoop_not_running hroom hrun, ih, List.nil_append]

/-! ### Preservation of the lane-index invariant -/

theorem laneOk_inputStep {p : Player} (pl : Payload) (h : laneOk p) :
    laneOk (inputStep pl p) := by
  obtain ⟨h0, h1⟩ := h
  unfold inputStep
  by_cases hl : pl.input = some "left"
  · simp only [hl, if_true, laneOk]
    refine ⟨le_max_left _ _, max_lt (by norm_num [LANE_X]) (by omega)⟩
  · by_cases hr : pl.input = some "right"
    · simp only [hl, hr, if_false, if_true, laneOk]
      refine ⟨le_min (by norm_num [LANE_X]) (by omega),
        lt_of_le_of_lt (min_le_left _ _) (by norm_num [LANE_X])⟩
    · simp only [hl, hr, if_false]
      exact ⟨h0, h1⟩

theorem laneOk_joinPlayer (pl : Payload) : laneOk (joinPlayer pl) := by
  simp [laneOk, joinPlayer, LANE_X]

theorem laneOk_applyUpdate {p : Player} {pl : Payload} (hpl : pl.laneTarget = none)
    (h : laneOk p) : laneOk (applyUpdate p pl) := by
  simpa [laneOk, applyUpdate, hpl] using h

theorem laneOk_stepPlayer {p : Player} (obstacles : List Obstacle) (h : laneOk p) :
    laneOk (stepPlayer obstacles p) := by
  unfold stepPlayer
  by_cases hal : p.alive <;> simpa [hal, laneOk] using h

theorem laneOkPlayers_alSet {ps : List (String × Player)} {pid : String} {p : Player}
    (h : ∀ kv ∈ ps, laneOk kv.2) (hp : laneOk p) :
    ∀ kv ∈ alSet pid p ps, laneOk kv.2 := by
  intro kv hkv
  rcases mem_alSet hkv with h0 | h0
  · subst h0
    exact hp
  · exact h kv h0

theorem laneOkRoom_emptyRoom : laneOkRoom emptyRoom := by
  intro kv hkv
  simp [emptyRoom] at hkv

theorem laneOkRooms_alSet {rooms : Rooms} {roomId : String} {room : Room}
    (h : laneOkRooms rooms) (hr : laneOkRoom room) :
    laneOkRooms (alSet roomId room rooms) := by
  intro kv hkv
  rcases mem_alSet hkv with h0 | h0
  · subst h0
    exact hr
  · exact h kv h0

theorem laneOkRooms_alDel {rooms : Rooms} (roomId : String)
    (h : laneOkRooms rooms) : laneOkRooms (alDel roomId rooms) :=
  fun kv hkv => h kv (mem_alDel hkv)

theorem laneOkRooms_get {rooms : Rooms} {roomId : String} {room : Room}
    (h : laneOkRooms rooms) (hg : alGet roomId rooms = some room) : laneOkRoom room :=
  h (roomId, room) (alGet_mem hg)

theorem laneOkRooms_ensureRoom {rooms : Rooms} (roomId : String)
    (h : laneOkRooms rooms) : laneOkRooms (ensureRoom roomId rooms) := by
  unfold ensureRoom
  cases alGet roomId rooms with
  | none => exact laneOkRooms_alSet h laneOkRoom_emptyRoom
  | some r => exact h

theorem laneOkRooms_startGame {rnd : ℕ → ℚ} {rooms : Rooms} (roomId : String)
    (h : laneOkRooms rooms) : laneOkRooms (startGame rnd rooms roomId) := by
  unfold startGame
  cases alGet roomId rooms with
  | none => exact h
  | some room =>
    by_cases hr : room.running = true
    · simp only [hr, if_true]
      exact h
    · simp only [Bool.not_eq_true] at hr
      simp only [hr, Bool.false_eq_true, if_false]
      refine laneOkRooms_alSet h ?_
      intro kv hkv
      simp only at hkv
      rcases List.mem_map.mp hkv with ⟨a, _, rfl⟩
      simp [laneOk, LANE_X]

theorem laneOkRooms_stopGame {rooms : Rooms} (roomId : String)
    (h : laneOkRooms rooms) : laneOkRooms (stopGame rooms roomId).1 := by
  unfold stopGame
  cases hg : alGet roomId rooms with
  | none => exact h
  | some room =>
    by_cases hr : room.running = true
    · simp only [hr, if_true]
      refine laneOkRooms_alSet h ?_
      intro kv hkv
      exact laneOkRooms_get h hg kv hkv
    · simp only [Bool.not_eq_true] at hr
      simp only [hr, Bool.false_eq_true, if_false]
      exact h

theorem laneOkRoom_tickRoom {rnd : ℕ → ℚ × ℚ} {room : Room}
    (h : laneOkRoom room) : laneOkRoom (tickRoom rnd room) := by
  intro kv hkv
  simp only [tickRoom] at hkv
  rcases List.mem_map.mp hkv with ⟨a, ha, rfl⟩
  exact laneOk_stepPlayer _ (h a ha)

theorem laneOkRooms_gameLoop {rnd : ℕ → ℚ × ℚ} {rooms : Rooms} (roomId : String)
    (h : laneOkRooms rooms) : laneOkRooms (gameLoop rnd rooms roomId).1 := by
  unfold gameLoop
  cases hg : alGet roomId rooms with
  | none => exact h
  | some room =>
    by_cases hr : room.running = true
    · simp only [hr, if_true]
      have hok : laneOkRooms (alSet roomId (tickRoom rnd room) rooms) :=
        laneOkRooms_alSet h (laneOkRoom_tickRoom (laneOkRooms_get h hg))
      by_cases hc : (((room.players.filter (fun kv => kv.2.alive)).length == 0) &&
          !(tickRoom rnd room).players.isEmpty) = true
      · simp only [hc, if_true]
        exact laneOkRooms_stopGame roomId hok
      · simp only [hc, Bool.false_eq_true, if_false]
        exact hok
    · simp only [Bool.not_eq_true] at hr
      simp only [hr, Bool.false_eq_true, if_false]
      exact h

theorem laneOkRoom_mergePlayers {room : Room} {pid : String} {payload : Option Payload}
    (hpl : (payload.map Payload.laneTarget).getD none = none)
    (h : laneOkRoom room) : ∀ kv ∈ mergePlayers room.players pid payload, laneOk kv.2 := by
  unfold mergePlayers
  cases hg : alGet pid room.players with
  | none =>
    cases payload <;> exact fun kv hkv => h kv hkv
  | some p =>
    cases payload with
    | none => exact fun kv hkv => h kv hkv
    | some pl =>
      refine laneOkPlayers_alSet h ?_
      exact laneOk_applyUpdate (by simpa using hpl) (h (pid, p) (alGet_mem hg))

theorem laneOkRooms_handleMessage {rnd : ℕ → ℚ} {rooms : Rooms} {ws : Conn} {m : InMsg}
    (hm : MsgNoLanePatch m) (h : laneOkRooms rooms) :
    laneOkRooms (handleMessage rnd rooms ws m).1 := by
  have h1 : laneOkRooms (ensureRoom m.roomId rooms) := laneOkRooms_ensureRoom _ h
  have hroomOk : laneOkRoom ((alGet m.roomId (ensureRoom m.roomId rooms)).getD emptyRoom) := by
    cases hg : alGet m.roomId (ensureRoom m.roomId rooms) with
    | none => exact laneOkRoom_emptyRoom
    | some r => exact laneOkRooms_get h1 hg
  unfold handleMessage
  by_cases hj : m.action = "join"
  · simp only [hj, String.reduceEq, reduceIte]
    cases m.payload with
    | none => exact h1
    | some pl =>
      exact laneOkRooms_alSet h1 (laneOkPlayers_alSet hroomOk (laneOk_joinPlayer pl))
  · by_cases hu : m.action = "update"
    · simp only [hu, String.reduceEq, reduceIte]
      have hmerged : ∀ kv ∈ mergePlayers
          ((alGet m.roomId (ensureRoom m.roomId rooms)).getD emptyRoom).players
          m.playerId m.payload, laneOk kv.2 :=
        laneOkRoom_mergePlayers (hm hu) hroomOk
      have h2 : laneOkRooms (alSet m.roomId
          { (alGet m.roomId (ensureRoom m.roomId rooms)).getD emptyRoom with
            players := mergePlayers
              ((alGet m.roomId (ensureRoom m.roomId rooms)).getD emptyRoom).players
              m.playerId m.payload } (ensureRoom m.roomId rooms)) :=
        laneOkRooms_alSet h1 hmerged
      split
      · exact laneOkRooms_startGame _ h2
      · exact h2
    · by_cases hi : m.action = "input"
      · simp only [hi, String.reduceEq, reduceIte]
        cases hg : alGet m.playerId
            ((alGet m.roomId (ensureRoom m.roomId rooms)).getD emptyRoom).players with
        | none => exact h1
        | some p =>
          by_cases hal : p.alive = true
          · simp only [hal, if_true]
            cases m.payload with
            | none => exact h1
            | some pl =>
              exact laneOkRooms_alSet h1
                (laneOkPlayers_alSet hroomOk (laneOk_inputStep pl (hroomOk _ (alGet_mem hg))))
          · simp only [Bool.not_eq_true] at hal
            simp only [hal, Bool.false_eq_true, if_false]
            exact h1
      · simp only [hj, hu, hi, if_false]
        exact h1

theorem laneOkRooms_handleClose {rooms : Rooms} {ws : Conn}
    (h : laneOkRooms rooms) : laneOkRooms (handleClose rooms ws).1 := by
  cases hr : ws.roomId with
  | none => simpa [handleClose, hr] using h
  | some roomId =>
    cases hp : ws.playerId with
    | none => simpa [handleClose, hr, hp] using h
    | some playerId =>
      cases hg : alGet roomId rooms with
      | none => simpa [handleClose, hr, hp, hg] using h
      | some room =>
        have hroom1 : laneOkRoom { room with players := alDel playerId room.players } := by
          intro kv hkv
          exact laneOkRooms_get h hg kv (mem_alDel hkv)
        simp only [handleClose, hr, hp, hg]
        split
        · exact laneOkRooms_alDel _ (laneOkRooms_stopGame _ (laneOkRooms_alSet h hroom1))
        · exact laneOkRooms_alSet h hroom1

theorem laneOkRooms_evStep {rooms : Rooms} {ev : Ev}
    (hg : EvNoLanePatch ev) (h : laneOkRooms rooms) : laneOkRooms (evStep rooms ev) := by
  cases ev with
  | emsg rnd m => exact laneOkRooms_handleMessage hg h
  | etick rnd roomId => exact laneOkRooms_gameLoop _ h
  | eclose ws => exact laneOkRooms_handleClose h

theorem laneOkRooms_runEvents {rooms : Rooms} {evs : List Ev}
    (hg : ∀ ev ∈ evs, EvNoLanePatch ev) (h : laneOkRooms rooms) :
    laneOkRooms (runEvents rooms evs) := by
  induction evs generalizing rooms with
  | nil => exact h
  | cons ev rest ih =>
    exact ih (fun e he => hg e (List.mem_cons_of_mem _ he))
      (laneOkRooms_evStep (hg ev (List.mem_cons_self _ _)) h)

/-! ### Dead players are frozen -/

theorem stepPlayer_dead {p : Player} (obstacles : List Obstacle) (h : p.alive = false) :
    stepPlayer obstacles p = p := by
  simp [stepPlayer, h]

theorem stopGame_running {rooms : Rooms} {roomId : String} {room : Room}
    (hroom : alGet roomId rooms = some room) (hrun : room.running = true) :
    stopGame rooms roomId =
      (alSet roomId { room with running := false } rooms, [OutMsg.gameOver roomId]) := by
  simp [stopGame, hroom, hrun]

theorem alGet_gameLoop_run {rnd : ℕ → ℚ × ℚ} {rooms : Rooms} {roomId : String} {room : Room}
    (hroom : alGet roomId rooms = some room) (hrun : room.running = true) :
    alGet roomId (gameLoop rnd rooms roomId).1 = some (tickRoom rnd room) ∨
    alGet roomId (gameLoop rnd rooms roomId).1 =
      some { tickRoom rnd room with running := false } := by
  have hrunning : (tickRoom rnd room).running = true := by simp [tickRoom, hrun]
  simp only [gameLoop, hroom, hrun, if_true]
  split
  · right
    rw [stopGame_running (alGet_alSet_self _ _ _) hrunning]
    simp [alGet_alSet_self]
  · left
    simp [alGet_alSet_self]

theorem gameLoop_dead_fixed {rnd : ℕ → ℚ × ℚ} {rooms : Rooms} {roomId pid : String} {p : Player}
    (hdead : p.alive = false)
    (h : ∃ room, alGet roomId rooms = some room ∧ alGet pid room.players = some p) :
    ∃ room', alGet roomId (gameLoop rnd rooms roomId).1 = some room' ∧
      alGet pid room'.players = some p := by
  obtain ⟨room, hroom, hp⟩ := h
  by_cases hrun : room.running = true
  · have hstep : alGet pid (tickRoom rnd room).players = some p := by
      rw [tickRoom_players_get, hp]
      simp [stepPlayer_dead _ hdead]
    rcases @alGet_gameLoop_run rnd _ _ _ hroom hrun with h | h
    · exact ⟨_, h, hstep⟩
    · exact ⟨_, h, hstep⟩
  · simp only [Bool.not_eq_true] at hrun
    rw [gameLoop_not_running hroom hrun]
    exact ⟨room, hroom, hp⟩

theorem tickN_dead_fixed {rnds : ℕ → ℕ → ℚ × ℚ} {rooms : Rooms} {roomId pid : String}
    {p : Player} {n : ℕ} (hdead : p.alive = false)
    (h : ∃ room, alGet roomId rooms = some room ∧ alGet pid room.players = some p) :
    ∃ room', alGet roomId (tickN rnds roomId rooms n).1 = some room' ∧
      alGet pid room'.players = some p := by
  induction n generalizing rnds rooms with
  | zero => exact h
  | succ n ih =>
    simp only [tickN]
    exact ih (gameLoop_dead_fixed hdead h)

/-! ### Claim C4 -/

/-- **C4.** For every player and every sequence of `input` messages with
payload `left` or `right`, `laneTarget` remains within
`[0, LANE_X.length - 1]`; a `left` at index 0 and a `right` at the top
index leave the player unchanged (clamped, not wrapped); and `input`
handling never broadcasts, never rebinds the connection, and never
mutates `laneCurrent`. -/
theorem claim_C4 (rnd : ℕ → ℚ) (rooms : Rooms) (ws : Conn) (m : InMsg)
    (ha : m.action = "input") :
    ((handleMessage rnd rooms ws m).2.2 = [] ∧ (handleMessage rnd rooms ws m).2.1 = ws) ∧
    (∀ room p pl,
      alGet m.roomId (ensureRoom m.roomId rooms) = some room →
      alGet m.playerId room.players = some p → m.payload = some pl → p.alive = true →
      alGet m.roomId (handleMessage rnd rooms ws m).1 =
        some { room with players := alSet m.playerId (inputStep pl p) room.players }) ∧
    (∀ pl p, (inputStep pl p).laneCurrent = p.laneCurrent ∧ (inputStep pl p).x = p.x ∧
      (0 ≤ p.laneTarget → p.laneTarget ≤ (LANE_X.length : ℤ) - 1 →
        0 ≤ (inputStep pl p).laneTarget ∧
          (inputStep pl p).laneTarget ≤ (LANE_X.length : ℤ) - 1) ∧
      (p.laneTarget = 0 → pl.input = some "left" → inputStep pl p = p) ∧
      (p.laneTarget = (LANE_X.length : ℤ) - 1 → pl.input = some "right" →
        inputStep pl p = p)) ∧
    (∀ evs : List Ev,
      (∀ ev ∈ evs, ∃ rnd' m', ev = Ev.emsg rnd' m' ∧ m'.action = "input") →
      laneOkRooms rooms → laneOkRooms (runEvents rooms evs)) := by
  refine ⟨?_, ?_, ?_, ?_⟩
  · simp only [handleMessage, ha, String.reduceEq, reduceIte]
    rcases alGet m.playerId ((alGet m.roomId (ensureRoom m.roomId rooms)).getD emptyRoom).players
        with _ | p
    · exact ⟨rfl, rfl⟩
    · by_cases hal : p.alive = true
      · rcases m.payload with _ | pl
        · simp [hal]
        · simp [hal]
      · simp only [Bool.not_eq_true] at hal
        simp [hal]
  · intro room p pl hroom hp hpl hal
    simp only [handleMessage, ha, String.reduceEq, reduceIte, hroom, Option.getD_some, hp,
      hpl, hal, if_true]
    exact alGet_alSet_self _ _ _
  · intro pl p
    refine ⟨?_, ?_, ?_, ?_, ?_⟩
    · unfold inputStep
      split <;> try rfl
      split <;> rfl
    · unfold inputStep
      split <;> try rfl
      split <;> rfl
    · intro h0 h1
      unfold inputStep
      split
      · simp only
        constructor
        · exact le_max_left _ _
        · refine max_le (by norm_num [LANE_X]) (by omega)
      · split
        · simp only
          constructor
          · exact le_min (by norm_num [LANE_X]) (by omega)
          · exact min_le_left _ _
        · exact ⟨h0, h1⟩
    · intro h0 hl
      have hmax : max 0 (p.laneTarget - 1) = p.laneTarget := by
        rw [h0]
        decide
      simp only [inputStep, hl, if_true, hmax]
    · intro h0 hr
      have hmin : min ((LANE_X.length : ℤ) - 1) (p.laneTarget + 1) = p.laneTarget := by
        rw [h0]
        norm_num [LANE_X]
      simp only [inputStep, hr, Option.some.injEq, String.reduceEq, if_false, reduceIte, hmin]
  · intro evs hins h
    refine laneOkRooms_runEvents ?_ h
    intro ev hev
    obtain ⟨rnd', m', rfl, hact⟩ := hins ev hev
    intro habs
    rw [hact] at habs
    exact absurd habs (by decide)

/-- Witness for C4 at a concrete input: a `left` for the alive player
"P" in the lobby room. -/
theorem claim_C4_witness :
    (handleMessage rndZ [("R", roomIdle)] connFresh msgLeft).2.2 = [] ∧
    alGet "R" (handleMessage rndZ [("R", roomIdle)] connFresh msgLeft).1 =
      some { roomIdle with
        players := alSet "P" (inputStep { input := some "left" } playerA) roomIdle.players } ∧
    laneOkRooms (runEvents [("R", roomIdle)] [Ev.emsg rndZ msgLeft]) :=
  ⟨(claim_C4 rndZ [("R", roomIdle)] connFresh msgLeft rfl).1.1,
   (claim_C4 rndZ [("R", roomIdle)] connFresh msgLeft rfl).2.1 roomIdle playerA
     { input := some "left" } rfl rfl rfl rfl,
   (claim_C4 rndZ [("R", roomIdle)] connFresh msgLeft rfl).2.2.2 [Ev.emsg rndZ msgLeft]
     (fun ev hev => by
       rcases List.mem_singleton.mp hev with rfl
       exact ⟨rndZ, msgLeft, rfl, rfl⟩)
     (by decide)⟩

/-! ### Claim C5 -/

/-- **C5.** A player with `alive = false` is frozen: an `input` message
leaves the whole room table exactly as the eager room-creation left it
(`laneTarget` in particular unchanged) and emits nothing, and every
subsequent tick skips the lane-smoothing step for that player, so its
record — `laneCurrent` and `x` included — never changes again. -/
theorem claim_C5 (rnd : ℕ → ℚ) (rooms : Rooms) (ws : Conn) (m : InMsg)
    (ha : m.action = "input")
    (room : Room) (hroom : alGet m.roomId (ensureRoom m.roomId rooms) = some room)
    (p : Player) (hp : alGet m.playerId room.players = some p)
    (hdead : p.alive = false) :
    (handleMessage rnd rooms ws m).1 = ensureRoom m.roomId rooms ∧
    (handleMessage rnd rooms ws m).2.2 = [] ∧
    (∀ obstacles, stepPlayer obstacles p = p) ∧
    (∀ (roomId : String) (rooms' : Rooms) (room' : Room),
      alGet roomId rooms' = some room' → alGet m.playerId room'.players = some p →
      ∀ (rnds : ℕ → ℕ → ℚ × ℚ) (n : ℕ),
        ∃ room'', alGet roomId (tickN rnds roomId rooms' n).1 = some room'' ∧
          alGet m.playerId room''.players = some p) := by
  refine ⟨?_, ?_, fun obstacles => stepPlayer_dead obstacles hdead, ?_⟩
  · simp only [handleMessage, ha, String.reduceEq, reduceIte, hroom, Option.getD_some, hp,
      hdead, Bool.false_eq_true, if_false]
  · simp only [handleMessage, ha, String.reduceEq, reduceIte, hroom, Option.getD_some, hp,
      hdead, Bool.false_eq_true, if_false]
  · intro roomId rooms' room' hroom' hp' rnds n
    exact tickN_dead_fixed hdead ⟨room', hroom', hp'⟩

/-- Witness for C5 at a concrete input: a `left` for the dead player "P",
then two ticks of the running room holding the same dead player. -/
theorem claim_C5_witness :
    (handleMessage rndZ [("R", roomIdleDead)] connFresh msgLeft).1 =
      ensureRoom "R" [("R", roomIdleDead)] ∧
    (handleMessage rndZ [("R", roomIdleDead)] connFresh msgLeft).2.2 = [] ∧
    stepPlayer [] playerDead = playerDead ∧
    (∃ room'', alGet "R" (tickN rndS "R" [("R", roomDead)] 2).1 = some room'' ∧
      alGet "P" room''.players = some playerDead) :=
  ⟨(claim_C5 rndZ [("R", roomIdleDead)] connFresh msgLeft rfl roomIdleDead rfl playerDead
      rfl rfl).1,
   (claim_C5 rndZ [("R", roomIdleDead)] connFresh msgLeft rfl roomIdleDead rfl playerDead
      rfl rfl).2.1,
   (claim_C5 rndZ [("R", roomIdleDead)] connFresh msgLeft rfl roomIdleDead rfl playerDead
      rfl rfl).2.2.1 [],
   (claim_C5 rndZ [("R", roomIdleDead)] connFresh msgLeft rfl roomIdleDead rfl playerDead
      rfl rfl).2.2.2 "R" [("R", roomDead)] roomDead rfl rfl rndS 2⟩

/-! ### Claim C1 -/

theorem startGame_not_running {rnd : ℕ → ℚ} {rooms : Rooms} {roomId : String} {room : Room}
    (hroom : alGet roomId rooms = some room) (hrun : room.running = false) :
    startGame rnd rooms roomId =
      alSet roomId
        { room with
          running := true
          score := 0
          t := 0
          obstacles := (List.range 8).map (fun i => spawnObstacle i (rnd i) (-(i + 1 : ℚ) * 20))
          players := room.players.map (fun kv =>
            (kv.1, { kv.2 with
              alive := true, x := 0, y := PLAYER_START_Y, z := PLAYER_START_Z,
              laneTarget := 1, laneCurrent := 0 })) }
        rooms := by
  simp [startGame, hroom, hrun]

/-- **C1.** Processing an `update` message starts the round exactly when,
after the merge, the player mapping is non-empty, every player's `ready`
is true, and the room is not already running: the room's `running` flag
after handling is `running || (allReady && nonEmpty)`; if any player's
`ready` is false the room is left merged-but-untouched; a running room is
never restarted; and when the condition holds the handler leaves a room
with `running = true`, `t = 0`, `score = 0` and 8 seeded obstacles. -/
theorem claim_C1 (rnd : ℕ → ℚ) (rooms : Rooms) (ws : Conn) (m : InMsg)
    (ha : m.action = "update")
    (room : Room) (hroom : alGet m.roomId (ensureRoom m.roomId rooms) = some room)
    (players' : List (String × Player))
    (hmerge : players' = mergePlayers room.players m.playerId m.payload) :
    ((alGet m.roomId (handleMessage rnd rooms ws m).1).map Room.running =
      some (room.running || (players'.all (fun kv => kv.2.ready) && !players'.isEmpty))) ∧
    (∀ pid p, alGet pid players' = some p → p.ready = false →
      alGet m.roomId (handleMessage rnd rooms ws m).1 =
        some { room with players := players' }) ∧
    (room.running = true →
      alGet m.roomId (handleMessage rnd rooms ws m).1 = some { room with players := players' }) ∧
    (room.running = false → players'.all (fun kv => kv.2.ready) = true → players' ≠ [] →
      ∃ room', alGet m.roomId (handleMessage rnd rooms ws m).1 = some room' ∧
        room'.running = true ∧ room'.t = 0 ∧ room'.score = 0 ∧
        room'.obstacles.length = 8) := by
  have hmain : (handleMessage rnd rooms ws m).1 =
      if (players'.all (fun kv => kv.2.ready) && !room.running && !players'.isEmpty) = true then
        startGame rnd (alSet m.roomId { room with players := players' } (ensureRoom m.roomId rooms))
          m.roomId
      else alSet m.roomId { room with players := players' } (ensureRoom m.roomId rooms) := by
    simp only [handleMessage, ha, String.reduceEq, reduceIte, hroom, Option.getD_some, ← hmerge]
    split <;> rfl
  have hget : alGet m.roomId
      (alSet m.roomId { room with players := players' } (ensureRoom m.roomId rooms)) =
      some { room with players := players' } := alGet_alSet_self _ _ _
  by_cases hr : room.running = true
  · have hcond : (players'.all (fun kv => kv.2.ready) && !room.running && !players'.isEmpty)
        = false := by
      simp [hr]
    rw [hmain, hcond]
    simp only [Bool.false_eq_true, if_false]
    refine ⟨by rw [hget]; simp [hr], fun pid p _ _ => hget, fun _ => hget,
      fun habs => absurd hr (by simp [habs])⟩
  · simp only [Bool.not_eq_true] at hr
    by_cases hall : players'.all (fun kv => kv.2.ready) = true
    · by_cases hne : players'.isEmpty = true
      · have hcond : (players'.all (fun kv => kv.2.ready) && !room.running && !players'.isEmpty)
            = false := by
          simp [hne]
        rw [hmain, hcond]
        simp only [Bool.false_eq_true, if_false]
        refine ⟨by rw [hget]; simp [hr, hne], fun pid p _ _ => hget,
          fun habs => absurd habs (by simp [hr]),
          fun _ _ hne' => absurd (List.isEmpty_iff.mp hne) hne'⟩
      · have hcond : (players'.all (fun kv => kv.2.ready) && !room.running && !players'.isEmpty)
            = true := by
          simp only [Bool.not_eq_true] at hne
          simp [hall, hr, hne]
        rw [hmain, hcond, if_pos rfl]
        have hstarted := @startGame_not_running rnd _ _ _
          (alGet_alSet_self m.roomId { room with players := players' } (ensureRoom m.roomId rooms))
          (show ({ room with players := players' } : Room).running = false from hr)
        rw [hstarted, alGet_alSet_self]
        simp only [Bool.not_eq_true] at hne
        refine ⟨?_, ?_, ?_, ?_⟩
        · simp [hr, hall, hne]
        · intro pid p hp hready
          have := List.all_eq_true.mp hall (pid, p) (alGet_mem hp)
          simp only at this
          rw [hready] at this
          exact absurd this (by decide)
        · intro habs
          exact absurd habs (by simp [hr])
        · intro _ _ _
          exact ⟨_, rfl, rfl, rfl, rfl, by simp⟩
    · have hcond : (players'.all (fun kv => kv.2.ready) && !room.running && !players'.isEmpty)
          = false := by
        simp only [Bool.not_eq_true] at hall
        simp [hall]
      rw [hmain, hcond]
      simp only [Bool.false_eq_true, if_false]
      refine ⟨?_, fun pid p _ _ => hget, fun habs => absurd habs (by simp [hr]),
        fun _ hall' _ => absurd hall' hall⟩
      rw [hget]
      simp only [Bool.not_eq_true] at hall
      simp [hr, hall]

/-- Witness for C1 at a concrete input: player "P" flips `ready` to
true in the lobby room, which is non-empty and not running, so the round
starts. -/
theorem claim_C1_witness :
    ((alGet "R" (handleMessage rndZ [("R", roomIdle)] connFresh msgReady).1).map Room.running =
      some (roomIdle.running ||
        ((mergePlayers roomIdle.players "P" msgReady.payload).all (fun kv => kv.2.ready) &&
          !(mergePlayers roomIdle.players "P" msgReady.payload).isEmpty))) ∧
    (∃ room', alGet "R" (handleMessage rndZ [("R", roomIdle)] connFresh msgReady).1 =
      some room' ∧ room'.running = true ∧ room'.t = 0 ∧ room'.score = 0 ∧
      room'.obstacles.length = 8) :=
  ⟨(claim_C1 rndZ [("R", roomIdle)] connFresh msgReady rfl roomIdle rfl
      (mergePlayers roomIdle.players "P" msgReady.payload) rfl).1,
   (claim_C1 rndZ [("R", roomIdle)] connFresh msgReady rfl roomIdle rfl
      (mergePlayers roomIdle.players "P" msgReady.payload) rfl).2.2.2 rfl (by decide)
      (by decide)⟩

/-! ### Claim C2 -/

/-- **C2.** In a running room, a tick entered with at least one alive
player (in particular the tick in which the last alive player dies)
still broadcasts exactly one `gameState`, carrying the post-collision
players; a tick entered with players but zero alive players emits
exactly one `gameOver` and clears `running`, with no `gameState`; and a
non-running room's ticks change nothing and emit nothing, however many
fire, until a new start. -/
theorem claim_C2 (rnd : ℕ → ℚ × ℚ) (rooms : Rooms) (roomId : String) (room : Room)
    (hroom : alGet roomId rooms = some room) :
    (room.running = true →
      ∀ pid p, alGet pid room.players = some p → p.alive = true →
        (gameLoop rnd rooms roomId).2 =
          [OutMsg.gameState roomId (tickRoom rnd room).players (tickRoom rnd room).obstacles
            ⌊(tickRoom rnd room).score⌋ true]) ∧
    (room.running = true → room.players ≠ [] → (∀ kv ∈ room.players, kv.2.alive = false) →
      (gameLoop rnd rooms roomId).2 = [OutMsg.gameOver roomId] ∧
      (alGet roomId (gameLoop rnd rooms roomId).1).map Room.running = some false) ∧
    (room.running = false → ∀ (rnds : ℕ → ℕ → ℚ × ℚ) (n : ℕ),
      tickN rnds roomId rooms n = (rooms, [])) := by
  refine ⟨?_, ?_, ?_⟩
  · intro hrun pid p hp hal
    rw [gameLoop_run_alive hroom hrun hp hal]
  · intro hrun hne hdead
    rw [gameLoop_run_allDead hroom hrun hne hdead]
    refine ⟨rfl, ?_⟩
    rw [alGet_alSet_self]
    rfl
  · intro hrun rnds n
    exact tickN_not_running hroom hrun rnds n

/-- Witness for C2 at concrete inputs: a running room with one alive
player broadcasts a `gameState`; a running room whose lone player is
dead emits a single `gameOver` and stops; three further ticks of the
stopped room do nothing. -/
theorem claim_C2_witness :
    ((gameLoop rndP [("R", roomRun)] "R").2 =
      [OutMsg.gameState "R" (tickRoom rndP roomRun).players (tickRoom rndP roomRun).obstacles
        ⌊(tickRoom rndP roomRun).score⌋ true]) ∧
    ((gameLoop rndP [("R", roomDead)] "R").2 = [OutMsg.gameOver "R"] ∧
      (alGet "R" (gameLoop rndP [("R", roomDead)] "R").1).map Room.running = some false) ∧
    tickN rndS "R" [("R", roomIdle)] 3 = ([("R", roomIdle)], []) :=
  ⟨(claim_C2 rndP [("R", roomRun)] "R" roomRun rfl).1 rfl "P" playerA rfl rfl,
   (claim_C2 rndP [("R", roomDead)] "R" roomDead rfl).2.1 rfl (by decide) (by decide),
   (claim_C2 rndP [("R", roomIdle)] "R" roomIdle rfl).2.2 rfl rndS 3⟩

/-! ### Claim C3 -/

theorem updateObstacle_spec (speed rz rl : ℚ) (o : Obstacle)
    (hrz0 : 0 ≤ rz) (hrz1 : rz < 1) (hrl0 : 0 ≤ rl) (hrl1 : rl < 1) (hspeed : 0 < speed) :
    (o.z + speed > 6 →
      (updateObstacle speed rz rl o).x ∈ LANE_X ∧
      -240 ≤ (updateObstacle speed rz rl o).z ∧ (updateObstacle speed rz rl o).z ≤ -160) ∧
    (¬(o.z + speed > 6) →
      (updateObstacle speed rz rl o).x = o.x ∧
      (updateObstacle speed rz rl o).z = o.z + speed ∧ o.z ≤ (updateObstacle speed rz rl o).z) := by
  constructor
  · intro h6
    simp only [updateObstacle, if_pos h6]
    refine ⟨?_, by nlinarith, by nlinarith⟩
    · have hlen : (LANE_X.length : ℚ) = 3 := by norm_num [LANE_X]
      have h3 : ⌊rl * (LANE_X.length : ℚ)⌋ < 3 := by
        rw [hlen]
        refine Int.floor_lt.mpr ?_
        push_cast
        nlinarith
      have h4 : Int.toNat ⌊rl * (LANE_X.length : ℚ)⌋ < 3 := by omega
      have hmem : ∀ n : ℕ, n < 3 → LANE_X.getD n 0 ∈ LANE_X := by decide
      exact hmem _ h4
  · intro h6
    simp only [updateObstacle, if_neg h6]
    exact ⟨trivial, trivial, by linarith⟩

/-- **C3.** On every tick of a running room the speed is positive and
each obstacle's `z` advances by it; an obstacle whose `z` then exceeds 6
is recycled in place — its `x` becomes an element of `LANE_X` and its
`z` lands in `[-240, -160]` — while an obstacle not recycled keeps its
`x` and its `z` is non-decreasing. -/
theorem claim_C3 (rnd : ℕ → ℚ × ℚ) (rooms : Rooms) (roomId : String) (room : Room)
    (hroom : alGet roomId rooms = some room) (hrun : room.running = true)
    (ht : 0 ≤ room.t)
    (hrnd : ∀ i, 0 ≤ (rnd i).1 ∧ (rnd i).1 < 1 ∧ 0 ≤ (rnd i).2 ∧ (rnd i).2 < 1) :
    0 < roomSpeed room ∧
    ∃ room', alGet roomId (gameLoop rnd rooms roomId).1 = some room' ∧
      room'.obstacles = updateObstacles (roomSpeed room) rnd 0 room.obstacles ∧
      ∀ (i : ℕ) (o : Obstacle), room.obstacles[i]? = some o →
        ∃ o' : Obstacle, room'.obstacles[i]? = some o' ∧
          (o.z + roomSpeed room > 6 →
            o'.x ∈ LANE_X ∧ -240 ≤ o'.z ∧ o'.z ≤ -160) ∧
          (¬(o.z + roomSpeed room > 6) →
            o'.x = o.x ∧ o'.z = o.z + roomSpeed room ∧ o.z ≤ o'.z) := by
  have htick : 0 < TICK_SECONDS := by norm_num [TICK_SECONDS]
  have hspeed : 0 < roomSpeed room := by
    unfold roomSpeed
    have h1 : (0:ℚ) ≤ (room.t + TICK_SECONDS) * 0.12 := by
      apply mul_nonneg
      · linarith
      · norm_num
    have h2 : (0:ℚ) ≤ min 3.5 ((room.t + TICK_SECONDS) * 0.12) := le_min (by norm_num) h1
    linarith
  refine ⟨hspeed, ?_⟩
  have hperIndex : ∀ (i : ℕ) (o : Obstacle), room.obstacles[i]? = some o →
      ∃ o' : Obstacle, (updateObstacles (roomSpeed room) rnd 0 room.obstacles)[i]? = some o' ∧
        (o.z + roomSpeed room > 6 →
          o'.x ∈ LANE_X ∧ -240 ≤ o'.z ∧ o'.z ≤ -160) ∧
        (¬(o.z + roomSpeed room > 6) →
          o'.x = o.x ∧ o'.z = o.z + roomSpeed room ∧ o.z ≤ o'.z) := by
    intro i o hio
    obtain ⟨hrz0, hrz1, hrl0, hrl1⟩ := hrnd i
    have hupd : (updateObstacles (roomSpeed room) rnd 0 room.obstacles)[i]? =
        some (updateObstacle (roomSpeed room) (rnd i).1 (rnd i).2 o) := by
      rw [updateObstacles_getElem?, hio]
      simp
    exact ⟨_, hupd,
      (updateObstacle_spec _ _ _ o hrz0 hrz1 hrl0 hrl1 hspeed).1,
      (updateObstacle_spec _ _ _ o hrz0 hrz1 hrl0 hrl1 hspeed).2⟩
  obtain hres | hres := @alGet_gameLoop_run rnd _ _ _ hroom hrun
  · exact ⟨_, hres, rfl, hperIndex⟩
  · exact ⟨_, hres, rfl, hperIndex⟩

/-- Witness for C3 at a concrete input: the running room with one
obstacle at depth −20 and zero random draws. -/
theorem claim_C3_witness :
    0 < roomSpeed roomRun ∧
    ∃ room', alGet "R" (gameLoop rndP [("R", roomRun)] "R").1 = some room' ∧
      room'.obstacles = updateObstacles (roomSpeed roomRun) rndP 0 roomRun.obstacles ∧
      ∀ (i : ℕ) (o : Obstacle), roomRun.obstacles[i]? = some o →
        ∃ o' : Obstacle, room'.obstacles[i]? = some o' ∧
          (o.z + roomSpeed roomRun > 6 →
            o'.x ∈ LANE_X ∧ -240 ≤ o'.z ∧ o'.z ≤ -160) ∧
          (¬(o.z + roomSpeed roomRun > 6) →
            o'.x = o.x ∧ o'.z = o.z + roomSpeed roomRun ∧ o.z ≤ o'.z) :=
  claim_C3 rndP [("R", roomRun)] "R" roomRun rfl rfl (by norm_num [roomRun])
    (fun i => ⟨by norm_num [rndP], by norm_num [rndP], by norm_num [rndP], by norm_num [rndP]⟩)

/-! ### Claim C10 -/

theorem ensureRoom_present {rooms : Rooms} {roomId : String} {room : Room}
    (hroom : alGet roomId rooms = some room) : ensureRoom roomId rooms = rooms := by
  simp [ensureRoom, hroom]

/-- **C10.** A `join` processed while the room is running does not stop
or restart the round and leaves obstacles, score, `t` and every other
player unchanged; the joining player is inserted (overwriting any
same-id entry) with `ready = false`, `alive = true`, `x = 0`,
`laneTarget = 1`, `laneCurrent = 0`; only a roster `state` snapshot is
broadcast; and from the very next tick the newcomer is lane-smoothed and
collision-tested like any other alive player. -/
theorem claim_C10 (rnd : ℕ → ℚ) (rooms : Rooms) (ws : Conn) (m : InMsg)
    (ha : m.action = "join") (pl : Payload) (hpl : m.payload = some pl)
    (room : Room) (hroom : alGet m.roomId rooms = some room) (hrun : room.running = true)
    (room' : Room)
    (hroom' : room' = { room with players := alSet m.playerId (joinPlayer pl) room.players }) :
    alGet m.roomId (handleMessage rnd rooms ws m).1 = some room' ∧
    room'.running = true ∧ room'.obstacles = room.obstacles ∧ room'.score = room.score ∧
    room'.t = room.t ∧
    (handleMessage rnd rooms ws m).2.2 =
      [OutMsg.state m.roomId (alSet m.playerId (joinPlayer pl) room.players)] ∧
    (joinPlayer pl).ready = false ∧ (joinPlayer pl).alive = true ∧ (joinPlayer pl).x = 0 ∧
    (joinPlayer pl).laneTarget = 1 ∧ (joinPlayer pl).laneCurrent = 0 ∧
    alGet m.playerId room'.players = some (joinPlayer pl) ∧
    (∀ pid, pid ≠ m.playerId → alGet pid room'.players = alGet pid room.players) ∧
    (∀ rndT : ℕ → ℚ × ℚ,
      alGet m.roomId (gameLoop rndT (handleMessage rnd rooms ws m).1 m.roomId).1 =
        some (tickRoom rndT room') ∧
      alGet m.playerId (tickRoom rndT room').players =
        some (stepPlayer (tickRoom rndT room').obstacles (joinPlayer pl)) ∧
      (gameLoop rndT (handleMessage rnd rooms ws m).1 m.roomId).2 =
        [OutMsg.gameState m.roomId (tickRoom rndT room').players (tickRoom rndT room').obstacles
          ⌊(tickRoom rndT room').score⌋ true]) ∧
    (∀ obstacles : List Obstacle,
      (stepPlayer obstacles (joinPlayer pl)).laneCurrent =
        (joinPlayer pl).laneCurrent +
          (laneXVal (joinPlayer pl).laneTarget - (joinPlayer pl).laneCurrent) * 0.15 ∧
      (stepPlayer obstacles (joinPlayer pl)).x =
        (stepPlayer obstacles (joinPlayer pl)).laneCurrent ∧
      ((stepPlayer obstacles (joinPlayer pl)).alive = false ↔
        ∃ o ∈ obstacles,
          |o.x - (stepPlayer obstacles (joinPlayer pl)).laneCurrent| < OBSTACLE_BOUNDS ∧
          |o.z - (joinPlayer pl).z| < OBSTACLE_BOUNDS)) := by
  have hens : ensureRoom m.roomId rooms = rooms := ensureRoom_present hroom
  have hres : handleMessage rnd rooms ws m =
      (alSet m.roomId room' rooms,
       { ws with roomId := some m.roomId, playerId := some m.playerId },
       [OutMsg.state m.roomId (alSet m.playerId (joinPlayer pl) room.players)]) := by
    rw [hroom']
    simp only [handleMessage, ha, String.reduceEq, reduceIte, hpl, hens, hroom, Option.getD_some]
  have hpj : alGet m.playerId room'.players = some (joinPlayer pl) := by
    rw [hroom']
    exact alGet_alSet_self _ _ _
  have hrun' : room'.running = true := by
    rw [hroom']
    exact hrun
  refine ⟨by rw [hres]; exact alGet_alSet_self _ _ _, hrun',
    by rw [hroom'], by rw [hroom'], by rw [hroom'],
    by rw [hres], rfl, rfl, rfl, rfl, rfl, hpj,
    ?_, ?_, ?_⟩
  · intro pid hpid
    rw [hroom']
    exact alGet_alSet_ne _ _ _ _ hpid
  · intro rndT
    have hj : alGet m.roomId (alSet m.roomId room' rooms) = some room' := alGet_alSet_self _ _ _
    have hloop := @gameLoop_run_alive rndT _ _ _ _ _ hj hrun' hpj rfl
    rw [hres]
    refine ⟨?_, ?_, ?_⟩
    · rw [hloop]
      exact alGet_alSet_self _ _ _
    · rw [tickRoom_players_get, hpj]
      rfl
    · rw [hloop]
  · intro obstacles
    have hstep : stepPlayer obstacles (joinPlayer pl) =
        { joinPlayer pl with
          laneCurrent := (joinPlayer pl).laneCurrent +
            (laneXVal (joinPlayer pl).laneTarget - (joinPlayer pl).laneCurrent) * 0.15
          x := (joinPlayer pl).laneCurrent +
            (laneXVal (joinPlayer pl).laneTarget - (joinPlayer pl).laneCurrent) * 0.15
          alive := !(obstacles.any (fun o =>
            |o.x - ((joinPlayer pl).laneCurrent +
              (laneXVal (joinPlayer pl).laneTarget - (joinPlayer pl).laneCurrent) * 0.15)| <
                OBSTACLE_BOUNDS &&
            |o.z - (joinPlayer pl).z| < OBSTACLE_BOUNDS)) } := rfl
    rw [hstep]
    refine ⟨rfl, rfl, ?_⟩
    simp [List.any_eq_true]

/-- Witness for C10 at a concrete input: "Q" joins the running room
"R" and is ticked like an alive player immediately afterwards. -/
theorem claim_C10_witness :
    alGet "R" (handleMessage rndZ [("R", roomRun)] connFresh msgJoinQ).1 = some joinedRoomW ∧
    joinedRoomW.running = true ∧
    (handleMessage rndZ [("R", roomRun)] connFresh msgJoinQ).2.2 =
      [OutMsg.state "R"
        (alSet "Q" (joinPlayer { nickname := some "q", color := some "k" }) roomRun.players)] ∧
    (alGet "R" (gameLoop rndP (handleMessage rndZ [("R", roomRun)] connFresh msgJoinQ).1 "R").1 =
      some (tickRoom rndP joinedRoomW) ∧
     alGet "Q" (tickRoom rndP joinedRoomW).players =
      some (stepPlayer (tickRoom rndP joinedRoomW).obstacles
        (joinPlayer { nickname := some "q", color := some "k" })) ∧
     (gameLoop rndP (handleMessage rndZ [("R", roomRun)] connFresh msgJoinQ).1 "R").2 =
      [OutMsg.gameState "R" (tickRoom rndP joinedRoomW).players (tickRoom rndP joinedRoomW).obstacles
        ⌊(tickRoom rndP joinedRoomW).score⌋ true]) := by
  obtain ⟨h1, h2, h3, h4, h5, h6, h7, h8, h9, h10, h11, h12, h13, h14, h15⟩ :=
    claim_C10 rndZ [("R", roomRun)] connFresh msgJoinQ rfl _ rfl roomRun rfl rfl joinedRoomW rfl
  exact ⟨h1, h2, h6, h14 rndP⟩

/-! ### Claim C6 (corrected) -/

/-- Counterexample to **C6** as stated: a single message with an
unrecognized action — a no-op by the spec — eagerly creates the
referenced room, leaving a zero-player room in the store after the
handler completes. -/
theorem claim_C6_counterexample :
    (handleMessage rndZ [] connFresh msgNoop).1 = [("R", emptyRoom)] ∧
    emptyRoom.players = [] :=
  ⟨rfl, rfl⟩

theorem startGame_presence {rnd : ℕ → ℚ} {rooms : Rooms} {roomId : String} {room : Room}
    (hg : alGet roomId rooms = some room) :
    ∃ room', alGet roomId (startGame rnd rooms roomId) = some room' := by
  unfold startGame
  rw [hg]
  by_cases hr : room.running = true
  · simp only [hr, if_true]
    exact ⟨room, hg⟩
  · simp only [Bool.not_eq_true] at hr
    simp only [hr, Bool.false_eq_true, if_false]
    exact ⟨_, alGet_alSet_self _ _ _⟩

/-- **C6 (amended).** Any message — whatever its action — eagerly
inserts the referenced room if absent, so a message with an unrecognized
action for a fresh roomId leaves a zero-player room in the store; after
any message the referenced room is present; and the room is deleted
synchronously when the last player's disconnect is processed. -/
theorem claim_C6_amended (rnd : ℕ → ℚ) (rooms : Rooms) (ws : Conn) (m : InMsg) :
    (∃ room, alGet m.roomId (handleMessage rnd rooms ws m).1 = some room) ∧
    (alGet m.roomId rooms = none → m.action ≠ "join" → m.action ≠ "update" →
      m.action ≠ "input" →
      alGet m.roomId (handleMessage rnd rooms ws m).1 = some emptyRoom) ∧
    (∀ roomId playerId room, ws.roomId = some roomId → ws.playerId = some playerId →
      alGet roomId rooms = some room → alDel playerId room.players = [] →
      alGet roomId (handleClose rooms ws).1 = none) := by
  have hens : alGet m.roomId (ensureRoom m.roomId rooms) =
      some ((alGet m.roomId rooms).getD emptyRoom) := alGet_ensureRoom_self m.roomId rooms
  refine ⟨?_, ?_, ?_⟩
  · by_cases hj : m.action = "join"
    · simp only [handleMessage, hj, String.reduceEq, reduceIte]
      cases m.payload with
      | none => exact ⟨_, hens⟩
      | some pl => exact ⟨_, alGet_alSet_self _ _ _⟩
    · by_cases hu : m.action = "update"
      · simp only [handleMessage, hj, hu, String.reduceEq, reduceIte]
        split
        · exact startGame_presence (alGet_alSet_self _ _ _)
        · exact ⟨_, alGet_alSet_self _ _ _⟩
      · by_cases hi : m.action = "input"
        · simp only [handleMessage, hi, String.reduceEq, reduceIte]
          cases alGet m.playerId ((alGet m.roomId (ensureRoom m.roomId rooms)).getD
              emptyRoom).players with
          | none => exact ⟨_, hens⟩
          | some p =>
            by_cases hal : p.alive = true
            · simp only [hal, if_true]
              cases m.payload with
              | none => exact ⟨_, hens⟩
              | some pl => exact ⟨_, alGet_alSet_self _ _ _⟩
            · simp only [Bool.not_eq_true] at hal
              simp only [hal, Bool.false_eq_true, if_false]
              exact ⟨_, hens⟩
        · simp only [handleMessage, hj, hu, hi, if_false]
          exact ⟨_, hens⟩
  · intro hnone hj hu hi
    have hens' : alGet m.roomId (ensureRoom m.roomId rooms) = some emptyRoom := by
      rw [hens, hnone]
      rfl
    simp only [handleMessage, hj, hu, hi, if_false]
    exact hens'
  · intro roomId playerId room h1 h2 hg he
    have he' : ({ room with players := alDel playerId room.players } : Room).players = [] := he
    simp only [handleClose, h1, h2, hg]
    rw [if_pos he']
    exact alGet_alDel_self _ _

/-- Witness for the amended C6 at concrete inputs: the no-op message
creates room "R" with no players, and the last player's disconnect
removes the room synchronously. -/
theorem claim_C6_amended_witness :
    (∃ room, alGet "R" (handleMessage rndZ [] connFresh msgNoop).1 = some room) ∧
    alGet "R" (handleMessage rndZ [] connFresh msgNoop).1 = some emptyRoom ∧
    alGet "R" (handleClose [("R", roomIdle)]
      { roomId := some "R", playerId := some "P", isOpen := true }).1 = none := by
  obtain ⟨w1, w2, _⟩ := claim_C6_amended rndZ [] connFresh msgNoop
  refine ⟨w1, w2 rfl (by decide) (by decide) (by decide), ?_⟩
  obtain ⟨_, _, w3⟩ := claim_C6_amended rndZ [("R", roomIdle)]
    { roomId := some "R", playerId := some "P", isOpen := true } msgNoop
  exact w3 "R" "P" roomIdle rfl rfl rfl (by decide)

/-! ### Claim C7 (corrected) -/

/-- Counterexample to **C7** as stated: a `join` whose payload is
missing throws at `payload.nickname`, but only after the handler has
already created the room and rebound the connection — so a malformed
message does not leave all state unchanged. -/
theorem claim_C7_counterexample :
    handleRaw rndZ [] connFresh (some msgJoinNoPayload) =
      ([("R", emptyRoom)], { roomId := some "R", playerId := some "P", isOpen := true }, []) ∧
    ([("R", emptyRoom)] : Rooms) ≠ ([] : Rooms) ∧
    ({ roomId := some "R", playerId := some "P", isOpen := true } : Conn) ≠ connFresh :=
  ⟨rfl, by decide, by decide⟩

/-- **C7 (amended).** An undecodable message changes nothing and sends
nothing.  A message whose missing payload makes handling throw (a `join`
always, an `input` when the target player is alive) still creates the
referenced room if absent — and a `join` also rebinds the connection —
before the throw is caught; but no player entry is created or modified,
no broadcast is sent, and rooms already in the store keep their state. -/
theorem claim_C7_amended (rnd : ℕ → ℚ) (rooms : Rooms) (ws : Conn) :
    handleRaw rnd rooms ws none = (rooms, ws, []) ∧
    (∀ m : InMsg, m.payload = none → m.action = "join" →
      handleMessage rnd rooms ws m =
        (ensureRoom m.roomId rooms,
         { ws with roomId := some m.roomId, playerId := some m.playerId }, [])) ∧
    (∀ m : InMsg, m.payload = none → m.action = "input" →
      ∀ room p, alGet m.roomId (ensureRoom m.roomId rooms) = some room →
        alGet m.playerId room.players = some p → p.alive = true →
        handleMessage rnd rooms ws m = (ensureRoom m.roomId rooms, ws, [])) ∧
    (∀ roomId room, alGet roomId rooms = some room →
      ∀ rid, alGet roomId (ensureRoom rid rooms) = some room) := by
  refine ⟨rfl, ?_, ?_, ?_⟩
  · intro m hpl ha
    simp only [handleMessage, ha, String.reduceEq, reduceIte, hpl]
  · intro m hpl ha room p hroom hp hal
    simp only [handleMessage, ha, String.reduceEq, reduceIte, hpl, hroom, Option.getD_some,
      hp, hal, if_true]
  · intro roomId room hg rid
    by_cases hr : roomId = rid
    · subst hr
      rw [ensureRoom_present hg]
      exact hg
    · rw [alGet_ensureRoom_ne _ _ _ hr]
      exact hg

/-- Witness for the amended C7 at concrete inputs. -/
theorem claim_C7_amended_witness :
    handleRaw rndZ [] connFresh none = ([], connFresh, []) ∧
    handleMessage rndZ [] connFresh msgJoinNoPayload =
      (ensureRoom "R" [],
       { roomId := some "R", playerId := some "P", isOpen := true }, []) ∧
    handleMessage rndZ [("R", roomIdle)] connFresh msgInputNoPayload =
      (ensureRoom "R" [("R", roomIdle)], connFresh, []) ∧
    alGet "R" (ensureRoom "Z" [("R", roomIdle)]) = some roomIdle :=
  ⟨(claim_C7_amended rndZ [] connFresh).1,
   (claim_C7_amended rndZ [] connFresh).2.1 msgJoinNoPayload rfl rfl,
   (claim_C7_amended rndZ [("R", roomIdle)] connFresh).2.2.1 msgInputNoPayload rfl rfl
     roomIdle playerA rfl rfl rfl,
   (claim_C7_amended rndZ [("R", roomIdle)] connFresh).2.2.2 "R" roomIdle rfl "Z"⟩

/-! ### Claim C8 (corrected) -/

/-- Counterexample to **C8** as stated: the first document's handler
broadcast sends its roomId-tagged state message to every open client, so
an open connection bound to room "B" receives a message scoped to room
"A". -/
theorem claim_C8_counterexample :
    broadcastAllClients [connB] = [connB] ∧ connB.roomId ≠ some "A" :=
  ⟨rfl, by decide⟩

/-- **C8 (amended).** The main server's `broadcastToRoom` delivers a
room-scoped message to exactly the open connections bound to that
roomId; the first document's handler, by contrast, delivers its state
message to every open connection regardless of binding. -/
theorem claim_C8_amended (clients : List Conn) (roomId : String) (c : Conn) :
    (c ∈ broadcastToRoom clients roomId ↔
      c ∈ clients ∧ c.isOpen = true ∧ c.roomId = some roomId) ∧
    (c ∈ broadcastAllClients clients ↔ c ∈ clients ∧ c.isOpen = true) := by
  constructor
  · simp [broadcastToRoom, List.mem_filter, and_assoc]
  · simp [broadcastAllClients, List.mem_filter]

/-! ### Claim C9 (corrected) -/

/-- Counterexample to **C9** as stated: after a join and one `update`
whose payload smuggles `laneTarget = 5` through the shallow merge, the
room holds an alive player whose `laneTarget` is not a valid index into
`LANE_X`, so the next tick's `LANE_X[laneTarget]` lookup is out of
bounds. -/
theorem claim_C9_counterexample :
    alGet "R" (runEvents [] lanePatchTrace) =
      some { players := [("P", { playerA with laneTarget := 5 })] } ∧
    ({ playerA with laneTarget := 5 } : Player).alive = true ∧
    ¬laneOk { playerA with laneTarget := 5 } :=
  ⟨rfl, rfl, by decide⟩

/-- **C9 (amended).** Provided no `update` payload carries a
`laneTarget` field, the invariant does hold: starting from any store
satisfying it, after any sequence of messages, ticks and disconnects
every player's `laneTarget` — in particular that read by the tick's
smoothing step — is a valid index into `LANE_X`. -/
theorem claim_C9_amended (rooms : Rooms) (evs : List Ev)
    (hgood : ∀ ev ∈ evs, EvNoLanePatch ev) (h : laneOkRooms rooms) :
    laneOkRooms (runEvents rooms evs) ∧
    (∀ roomId room pid p, alGet roomId (runEvents rooms evs) = some room →
      alGet pid room.players = some p →
      0 ≤ p.laneTarget ∧ p.laneTarget < (LANE_X.length : ℤ)) := by
  have hres := laneOkRooms_runEvents hgood h
  exact ⟨hres, fun roomId room pid p hg hp => hres (roomId, room) (alGet_mem hg)
    (pid, p) (alGet_mem hp)⟩

/-- Witness for the amended C9: a join, a ready update and one tick,
none of which patches `laneTarget`. -/
theorem claim_C9_amended_witness :
    laneOkRooms (runEvents [] [Ev.emsg rndZ msgJoin, Ev.emsg rndZ msgReady, Ev.etick rndP "R"]) ∧
    (∀ roomId room pid p,
      alGet roomId (runEvents [] [Ev.emsg rndZ msgJoin, Ev.emsg rndZ msgReady,
        Ev.etick rndP "R"]) = some room →
      alGet pid room.players = some p →
      0 ≤ p.laneTarget ∧ p.laneTarget < (LANE_X.length : ℤ)) :=
  claim_C9_amended [] [Ev.emsg rndZ msgJoin, Ev.emsg rndZ msgReady, Ev.etick rndP "R"]
    (by
      intro ev hev
      simp only [List.mem_cons, List.not_mem_nil, or_false] at hev
      rcases hev with rfl | rfl | rfl
      · exact fun habs => absurd habs (by decide)
      · exact fun _ => rfl
      · trivial)
    (by decide)

end Slope
